import Mathlib

/-!
# `examples/build_map.cpp`: building a bounded map from a sequence of point clouds

The program is glue code around the point-cloud library: every computational
step (reading the list of files, loading a cloud, running a filter, applying a
transformation, concatenating, saving) is a call into the library.  The
embedding keeps the control flow of `main` and `validateArgs` as it is written
and takes the library as a record of functions (`Library`).  A run produces the
sequence of library calls and console lines it performs (`Event`) and either a
return code or nothing when the process has called `abort()`.

Conventions.
* Library calls are total functions of their arguments: a run in which the
  library throws is outside the embedding, and a filter is a function of its
  configuration and of the cloud it is given.
* A `double` that the program computes is the quotient of two non-negative
  integers.  It is kept as an exact rational, with the two special results of a
  division by `0.0` (`DoubleValue`); rounding is not modelled, and
  `ltOne_rounded_quotient` shows that it does not change the test `< 1`.
* The loop counter `unsigned i` is a natural number: it does not wrap for a
  list of fewer than `2 ^ 32` entries.
-/

namespace BuildMap

/-! ## Values -/

/-- Result of a `double` division of two non-negative integers. -/
inductive DoubleValue where
  | finite (q : ℚ)
  | posInf
  | nan
deriving DecidableEq

/-- The expression `totalPointCount/(double)mapCloud.features.cols()` (lines 186 and 193):
dividing by `0.0` gives `+inf` for a positive numerator and `NaN` for `0`. -/
def DoubleValue.quotient (totalPointCount cols : Nat) : DoubleValue :=
  if cols = 0 then
    if totalPointCount = 0 then .nan else .posInf
  else
    .finite ((totalPointCount : ℚ) / (cols : ℚ))

/-- The comparison `probToKeep < 1` (lines 187 and 195): false for `+inf` and for `NaN`. -/
def DoubleValue.ltOne : DoubleValue → Bool
  | .finite q => decide (q < 1)
  | .posInf => false
  | .nan => false

/-- Value of an entry of `PM::Parameters`: a string literal of the source, or
`toParam` of a number. -/
inductive ParamValue where
  | text (s : String)
  | toParam (d : DoubleValue)
deriving DecidableEq

/-- The `PM::Parameters` map given to a registrar. -/
abbrev Parameters := List (String × ParamValue)

/-- A filter object returned by `pm.DataPointsFilterRegistrar.create`: the class
name and the parameters it was created with. -/
structure DataPointsFilter where
  className : String
  params : Parameters
deriving DecidableEq

/-- An entry of `PM::FileInfoVector`, as far as `main` reads it. -/
structure FileInfo (TP : Type) where
  readingFileName : String
  /-- The string returned by `readingExtension()`. -/
  readingExtension : String
  groundTruthTransformation : TP
deriving DecidableEq

/-- The library, for clouds of type `DP` and transformation matrices of type `TP`. -/
structure Library (DP TP : Type) where
  /-- `PM::FileInfoVector list(argv[1])`. -/
  fileInfoVector : String → List (FileInfo TP)
  /-- `boost::lexical_cast<unsigned>(argv[2])`. -/
  lexicalCastUnsigned : String → Nat
  /-- `TP::Identity(4,4)`. -/
  identity : TP
  /-- `rows()` of a transformation matrix. -/
  rows : TP → Nat
  /-- A default-constructed `PM::DataPoints`. -/
  emptyCloud : DP
  /-- `features.cols()`: the number of points of a cloud. -/
  cols : DP → Nat
  loadVTK : String → DP
  loadCSV : String → DP
  /-- `f->filter(cloud)`. -/
  filter : DataPointsFilter → DP → DP
  /-- `transformations.apply(cloud, T)` for a chain of transformations given by
  their class names; the result is the new value of `cloud`. -/
  apply : List String → DP → TP → DP
  /-- `mapCloud.concatenate(newCloud)`; the result is the new value of `mapCloud`. -/
  concatenate : DP → DP → DP
  /-- The text that `<< boost::filesystem::path(outputFileName).stem()` writes. -/
  stem : String → String

/-- A line written to `cout`, by the statement that writes it and the value
that it shows. -/
inductive ConsoleLine where
  | unsupportedFile
  | pointCloudLoaded
  | groundTruthRequired
  | randomlyKeep (probToKeep : DoubleValue)
  | numberOfPoints (cols : Nat)
  | outputFileName (name : String)
deriving DecidableEq

/-- What a run does, in order. -/
inductive Event (DP TP : Type) where
  | usageError (argv0 : String)
  | readFileList (listFileName : String)
  | createLogger (className : String)
  | createTransformation (className : String)
  | createFilter (f : DataPointsFilter)
  | loadVTK (fileName : String)
  | loadCSV (fileName : String)
  | cout (line : ConsoleLine)
  | filter (f : DataPointsFilter) (input : DP)
  | apply (chain : List String) (input : DP) (T : TP)
  | concatenate (mapCloud newCloud : DP)
  | saveVTK (cloud : DP) (fileName : String)
deriving DecidableEq

/-! ## Runs -/

/-- A computation that performs `events` and then either yields a value or has
aborted the process (`value = none`). -/
structure Step (ε α : Type) where
  events : List ε
  value : Option α
deriving DecidableEq

namespace Step

variable {ε α β : Type}

/-- Sequencing: nothing runs after an abort. -/
def bind (m : Step ε α) (f : α → Step ε β) : Step ε β :=
  match m.value with
  | none => ⟨m.events, none⟩
  | some a => ⟨m.events ++ (f a).events, (f a).value⟩

instance : Monad (Step ε) where
  pure a := ⟨[], some a⟩
  bind := Step.bind

/-- Perform one event. -/
def emit (e : ε) : Step ε Unit := ⟨[e], some ()⟩

/-- Perform one event that yields a value. -/
def call (e : ε) (a : α) : Step ε α := ⟨[e], some a⟩

/-- The call `abort()`. -/
def abort : Step ε α := ⟨[], none⟩

end Step

open Step

/-! ## The fixed filters (lines 89 to 134) -/

def removeScanner : DataPointsFilter :=
  ⟨"MinDistDataPointsFilter", [("minDist", .text "1.0")]⟩

/-- The filter first assigned to the variable `randSubsample` (line 97). -/
def randSubsample : DataPointsFilter :=
  ⟨"RandomSamplingDataPointsFilter", [("prob", .toParam (.finite (65 / 100)))]⟩

def normalFilter : DataPointsFilter :=
  ⟨"SurfaceNormalDataPointsFilter",
    [("binSize", .text "10"), ("epsilon", .text "5"), ("keepNormals", .text "1"),
      ("keepDensities", .text "0")]⟩

def densityFilter : DataPointsFilter :=
  ⟨"SurfaceNormalDataPointsFilter",
    [("binSize", .text "10"), ("epsilon", .text "5"), ("keepNormals", .text "0"),
      ("keepDensities", .text "1")]⟩

def orientNormalFilter : DataPointsFilter :=
  ⟨"OrientNormalsDataPointsFilter", [("towardCenter", .text "1")]⟩

def uniformSubsample : DataPointsFilter :=
  ⟨"MaxDensityDataPointsFilter", [("maxDensity", .toParam (.finite 30))]⟩

def shadowFilter : DataPointsFilter :=
  ⟨"ShadowDataPointsFilter", []⟩

/-- The chain `transformations` (lines 80 to 87). -/
def transformations : List String := ["TransformFeatures", "TransformNormals"]

/-- The random-sampling filter created at line 198. -/
def resizeFilter (probToKeep : DoubleValue) : DataPointsFilter :=
  ⟨"RandomSamplingDataPointsFilter", [("prob", .toParam probToKeep)]⟩

/-! ## The program -/

section Program

variable {DP TP : Type}

/-- The function `validateArgs` (lines 227 to 234). -/
def validateArgs (argc : Int) (argv : List String) : Step (Event DP TP) Unit :=
  if ¬ (argc = 4) then do
    emit (.usageError (argv.getD 0 ""))
    abort
  else
    pure ()

/-- The variables of `main` that live across the iterations of the loop. -/
structure LoopState (DP TP : Type) where
  mapCloud : DP
  newCloud : DP
  T : TP
  randSubsample : DataPointsFilter
deriving DecidableEq

/-- The name built in `outputFileNameIter` (lines 207 and 208). -/
def outputFileNameIter (lib : Library DP TP) (outputFileName : String) (i : Nat) : String :=
  lib.stem outputFileName ++ "_" ++ toString i

/-- The block "Control point cloud size" (lines 185 to 204), on the variables
`mapCloud` and `randSubsample`. -/
def controlSize (lib : Library DP TP) (totalPointCount : Nat)
    (mapCloud₀ : DP) (randSubsample₀ : DataPointsFilter) :
    Step (Event DP TP) (DP × DataPointsFilter) := do
  let mut mapCloud := mapCloud₀
  let mut randSubsample := randSubsample₀
  let mut probToKeep := DoubleValue.quotient totalPointCount (lib.cols mapCloud)
  if probToKeep.ltOne then
    mapCloud ← call (.filter densityFilter mapCloud) (lib.filter densityFilter mapCloud)
    mapCloud ← call (.filter uniformSubsample mapCloud) (lib.filter uniformSubsample mapCloud)
    probToKeep := DoubleValue.quotient totalPointCount (lib.cols mapCloud)
    if probToKeep.ltOne then
      emit (.cout (.randomlyKeep probToKeep))
      randSubsample ← call (.createFilter (resizeFilter probToKeep)) (resizeFilter probToKeep)
      mapCloud ← call (.filter randSubsample mapCloud) (lib.filter randSubsample mapCloud)
  return (mapCloud, randSubsample)

/-- The body of the loop (lines 137 to 213) for the counter `i` and the entry `list[i]`. -/
def iteration (lib : Library DP TP) (totalPointCount : Nat) (outputFileName : String)
    (i : Nat) (entry : FileInfo TP) (s : LoopState DP TP) :
    Step (Event DP TP) (LoopState DP TP) := do
  let mut mapCloud := s.mapCloud
  let mut newCloud := s.newCloud
  let mut T := s.T
  let mut randSubsample := s.randSubsample
  if entry.readingExtension = ".vtk" then
    newCloud ← call (.loadVTK entry.readingFileName) (lib.loadVTK entry.readingFileName)
  else if entry.readingExtension = ".csv" then
    newCloud ← call (.loadCSV entry.readingFileName) (lib.loadCSV entry.readingFileName)
  else
    emit (.cout .unsupportedFile)
    abort
  emit (.cout .pointCloudLoaded)
  if lib.rows entry.groundTruthTransformation ≠ 0 then
    T := entry.groundTruthTransformation
  else
    emit (.cout .groundTruthRequired)
    abort
  newCloud ← call (.filter removeScanner newCloud) (lib.filter removeScanner newCloud)
  newCloud ← call (.filter randSubsample newCloud) (lib.filter randSubsample newCloud)
  newCloud ← call (.filter normalFilter newCloud) (lib.filter normalFilter newCloud)
  newCloud ← call (.filter orientNormalFilter newCloud) (lib.filter orientNormalFilter newCloud)
  newCloud ← call (.filter shadowFilter newCloud) (lib.filter shadowFilter newCloud)
  newCloud ← call (.apply transformations newCloud T) (lib.apply transformations newCloud T)
  if i = 0 then
    mapCloud := newCloud
  else
    mapCloud ← call (.concatenate mapCloud newCloud) (lib.concatenate mapCloud newCloud)
    (mapCloud, randSubsample) ← controlSize lib totalPointCount mapCloud randSubsample
  emit (.cout (.numberOfPoints (lib.cols mapCloud)))
  emit (.saveVTK mapCloud (outputFileNameIter lib outputFileName i))
  emit (.cout (.outputFileName (outputFileNameIter lib outputFileName i)))
  return ⟨mapCloud, newCloud, T, randSubsample⟩

/-- The loop `for(unsigned i=0; i < list.size(); i++)` (line 136), from the
counter `i` on, over the entries `list[i], list[i+1], ...`. -/
def processingLoop (lib : Library DP TP) (totalPointCount : Nat) (outputFileName : String) :
    Nat → List (FileInfo TP) → LoopState DP TP → Step (Event DP TP) (LoopState DP TP)
  | _, [], s => pure s
  | i, entry :: rest, s =>
    iteration lib totalPointCount outputFileName i entry s >>=
      processingLoop lib totalPointCount outputFileName (i + 1) rest

/-- The statements of `main` before the loop (lines 58 to 134): the list of
files, the budget, the output file name and the first values of the loop variables. -/
def setup (lib : Library DP TP) (argc : Int) (argv : List String) :
    Step (Event DP TP) (List (FileInfo TP) × Nat × String × LoopState DP TP) := do
  validateArgs argc argv
  let list ← call (.readFileList (argv.getD 1 "")) (lib.fileInfoVector (argv.getD 1 ""))
  let totalPointCount := lib.lexicalCastUnsigned (argv.getD 2 "")
  let outputFileName := argv.getD 3 ""
  emit (.createLogger "FileLogger")
  let mapCloud := lib.emptyCloud
  let newCloud := lib.emptyCloud
  let T := lib.identity
  emit (.createTransformation "TransformFeatures")
  emit (.createTransformation "TransformNormals")
  emit (.createFilter removeScanner)
  let randSubsample ← call (.createFilter randSubsample) randSubsample
  emit (.createFilter normalFilter)
  emit (.createFilter densityFilter)
  emit (.createFilter orientNormalFilter)
  emit (.createFilter uniformSubsample)
  emit (.createFilter shadowFilter)
  return (list, totalPointCount, outputFileName, ⟨mapCloud, newCloud, T, randSubsample⟩)

/-- The statements of `main` after the loop (lines 215 to 224). -/
def finish (lib : Library DP TP) (outputFileName : String) (mapCloud₀ : DP) :
    Step (Event DP TP) Int := do
  let mut mapCloud := mapCloud₀
  mapCloud ← call (.filter densityFilter mapCloud) (lib.filter densityFilter mapCloud)
  mapCloud ← call (.filter uniformSubsample mapCloud) (lib.filter uniformSubsample mapCloud)
  mapCloud ← call (.filter densityFilter mapCloud) (lib.filter densityFilter mapCloud)
  emit (.cout (.numberOfPoints (lib.cols mapCloud)))
  emit (.saveVTK mapCloud outputFileName)
  emit (.cout (.outputFileName outputFileName))
  return 0

/-- The function `main` (lines 56 to 225). -/
def main (lib : Library DP TP) (argc : Int) (argv : List String) : Step (Event DP TP) Int := do
  let (list, totalPointCount, outputFileName, s₀) ← setup lib argc argv
  let s ← processingLoop lib totalPointCount outputFileName 0 list s₀
  finish lib outputFileName s.mapCloud

end Program

/-! ## A small library to run the program on -/

/-- A library whose clouds are point counts: a file holds as many points as
its name has characters, every filter keeps every point, concatenation adds. -/
def countLib (list : List (FileInfo Nat)) (budget : Nat) : Library Nat Nat where
  fileInfoVector _ := list
  lexicalCastUnsigned _ := budget
  identity := 4
  rows T := T
  emptyCloud := 0
  cols c := c
  loadVTK name := name.length
  loadCSV name := name.length
  filter _ c := c
  apply _ c _ := c
  concatenate m c := m + c
  stem name := "stem(" ++ name ++ ")"

/-- A library whose random-sampling filters keep the first `⌊prob · c⌋` of a
cloud's `c` points and whose other filters keep every point. -/
def floorLib (list : List (FileInfo Nat)) (budget : Nat) : Library Nat Nat where
  fileInfoVector _ := list
  lexicalCastUnsigned _ := budget
  identity := 4
  rows T := T
  emptyCloud := 0
  cols c := c
  loadVTK name := name.length
  loadCSV name := name.length
  filter f c :=
    match f.params with
    | [(_, .toParam (.finite q))] =>
      if f.className = "RandomSamplingDataPointsFilter" then min c ⌊q * (c : ℚ)⌋₊ else c
    | _ => c
  apply _ c _ := c
  concatenate m c := m + c
  stem name := "stem(" ++ name ++ ")"

/-- The command line `build_map list.yaml 5 map.vtk`. -/
def sampleArgs : List String := ["build_map", "list.yaml", "5", "map.vtk"]

/-- A list with one cloud of ten points. -/
def oneCloud : List (FileInfo Nat) := [⟨"cloud0.vtk", ".vtk", 4⟩]

/-- A list with a cloud of five points and a cloud of six points. -/
def twoClouds : List (FileInfo Nat) := [⟨"a.vtk", ".vtk", 4⟩, ⟨"bb.csv", ".csv", 4⟩]

/-- A list with clouds of five, six and seven points. -/
def threeClouds : List (FileInfo Nat) :=
  [⟨"a.vtk", ".vtk", 4⟩, ⟨"bb.csv", ".csv", 4⟩, ⟨"ccc.vtk", ".vtk", 4⟩]

/-- A list whose second entry has an extension that is not supported. -/
def secondUnsupported : List (FileInfo Nat) :=
  [⟨"a.vtk", ".vtk", 4⟩, ⟨"bb.VTK", ".VTK", 4⟩, ⟨"ccc.vtk", ".vtk", 4⟩]

/-! ## Vocabulary of the statements -/

section Vocabulary

variable {DP TP : Type}

/-- The reading extension is one of the two that the loop accepts (lines 138 and 140). -/
def FileInfo.supported (entry : FileInfo TP) : Prop :=
  entry.readingExtension = ".vtk" ∨ entry.readingExtension = ".csv"

instance (entry : FileInfo TP) : Decidable entry.supported :=
  inferInstanceAs (Decidable (_ ∨ _))

/-- The entry has a supported extension and a ground-truth transformation. -/
def valid (lib : Library DP TP) (entry : FileInfo TP) : Prop :=
  entry.supported ∧ lib.rows entry.groundTruthTransformation ≠ 0

instance (lib : Library DP TP) (entry : FileInfo TP) : Decidable (valid lib entry) :=
  inferInstanceAs (Decidable (_ ∧ _))

/-- The cloud read for an entry with a supported extension. -/
def load (lib : Library DP TP) (entry : FileInfo TP) : DP :=
  if entry.readingExtension = ".vtk" then lib.loadVTK entry.readingFileName
  else lib.loadCSV entry.readingFileName

/-- The library call that reads an entry with a supported extension. -/
def loadEvent (entry : FileInfo TP) : Event DP TP :=
  if entry.readingExtension = ".vtk" then .loadVTK entry.readingFileName
  else .loadCSV entry.readingFileName

/-- The cloud that an entry contributes to the map, as the specification words
it: load, filter, transform with the entry's own ground truth. -/
def contribution (lib : Library DP TP) (rs : DataPointsFilter) (entry : FileInfo TP) : DP :=
  lib.apply transformations
    (lib.filter shadowFilter (lib.filter orientNormalFilter (lib.filter normalFilter
      (lib.filter rs (lib.filter removeScanner (load lib entry))))))
    entry.groundTruthTransformation

/-- The library calls and console lines that produce `contribution`. -/
def contributionEvents (lib : Library DP TP) (rs : DataPointsFilter) (entry : FileInfo TP) :
    List (Event DP TP) :=
  [loadEvent entry, .cout .pointCloudLoaded,
    .filter removeScanner (load lib entry),
    .filter rs (lib.filter removeScanner (load lib entry)),
    .filter normalFilter (lib.filter rs (lib.filter removeScanner (load lib entry))),
    .filter orientNormalFilter
      (lib.filter normalFilter (lib.filter rs (lib.filter removeScanner (load lib entry)))),
    .filter shadowFilter (lib.filter orientNormalFilter
      (lib.filter normalFilter (lib.filter rs (lib.filter removeScanner (load lib entry))))),
    .apply transformations (lib.filter shadowFilter (lib.filter orientNormalFilter
      (lib.filter normalFilter (lib.filter rs (lib.filter removeScanner (load lib entry))))))
      entry.groundTruthTransformation]

/-- The three lines that end an iteration (lines 210 to 212). -/
def saveEvents (lib : Library DP TP) (outputFileName : String) (i : Nat) (mapCloud : DP) :
    List (Event DP TP) :=
  [.cout (.numberOfPoints (lib.cols mapCloud)),
    .saveVTK mapCloud (outputFileNameIter lib outputFileName i),
    .cout (.outputFileName (outputFileNameIter lib outputFileName i))]

/-- The map after the two density-driven filters of the resizing step. -/
def thinned (lib : Library DP TP) (mapCloud : DP) : DP :=
  lib.filter uniformSubsample (lib.filter densityFilter mapCloud)

/-- The resizing step as the specification words it, with the tests written on
point counts: what it does. -/
def resizeEvents (lib : Library DP TP) (totalPointCount : Nat) (mapCloud : DP) :
    List (Event DP TP) :=
  if totalPointCount < lib.cols mapCloud then
    [.filter densityFilter mapCloud, .filter uniformSubsample (lib.filter densityFilter mapCloud)]
      ++
      if totalPointCount < lib.cols (thinned lib mapCloud) then
        [.cout (.randomlyKeep (.quotient totalPointCount (lib.cols (thinned lib mapCloud)))),
          .createFilter (resizeFilter (.quotient totalPointCount (lib.cols (thinned lib mapCloud)))),
          .filter (resizeFilter (.quotient totalPointCount (lib.cols (thinned lib mapCloud))))
            (thinned lib mapCloud)]
      else []
  else []

/-- The resizing step as the specification words it: the map and the value of
the variable `randSubsample` that it leaves. -/
def resized (lib : Library DP TP) (totalPointCount : Nat) (mapCloud : DP)
    (rs : DataPointsFilter) : DP × DataPointsFilter :=
  if totalPointCount < lib.cols mapCloud then
    if totalPointCount < lib.cols (thinned lib mapCloud) then
      (lib.filter (resizeFilter (.quotient totalPointCount (lib.cols (thinned lib mapCloud))))
          (thinned lib mapCloud),
        resizeFilter (.quotient totalPointCount (lib.cols (thinned lib mapCloud))))
    else (thinned lib mapCloud, rs)
  else (mapCloud, rs)

/-- The clouds given to `saveVTK` with the file names, in order. -/
def saves : List (Event DP TP) → List (DP × String)
  | [] => []
  | .saveVTK cloud fileName :: rest => (cloud, fileName) :: saves rest
  | _ :: rest => saves rest

/-- The file names given to `saveVTK`, in order. -/
def savedNames (events : List (Event DP TP)) : List String :=
  (saves events).map Prod.snd

/-- The event is the application of a filter to a cloud. -/
def Event.isFilter : Event DP TP → Bool
  | .filter _ _ => true
  | _ => false

/-- The event is a call of `saveVTK`. -/
def Event.isSave : Event DP TP → Bool
  | .saveVTK _ _ => true
  | _ => false

/-- The event reads the list of files or creates a filter. -/
def Event.isListOrFilterCreation : Event DP TP → Bool
  | .readFileList _ => true
  | .createFilter _ => true
  | _ => false

/-- The random-sampling filters that a run applies: the value of `prob` and
the cloud, in order. -/
def randomSamplings : List (Event DP TP) → List (ParamValue × DP)
  | [] => []
  | .filter ⟨"RandomSamplingDataPointsFilter", [("prob", p)]⟩ input :: rest =>
    (p, input) :: randomSamplings rest
  | _ :: rest => randomSamplings rest

/-- The first values of the loop variables (lines 74 to 77 and 97). -/
def initialState (lib : Library DP TP) : LoopState DP TP :=
  ⟨lib.emptyCloud, lib.emptyCloud, lib.identity, randSubsample⟩

/-- The library calls of `main` before the loop, for four arguments. -/
def setupEvents (argv : List String) : List (Event DP TP) :=
  [.readFileList (argv.getD 1 ""), .createLogger "FileLogger",
    .createTransformation "TransformFeatures", .createTransformation "TransformNormals",
    .createFilter removeScanner, .createFilter randSubsample, .createFilter normalFilter,
    .createFilter densityFilter, .createFilter orientNormalFilter,
    .createFilter uniformSubsample, .createFilter shadowFilter]

/-- The final map as the specification words it. -/
def finalMap (lib : Library DP TP) (mapCloud : DP) : DP :=
  lib.filter densityFilter (lib.filter uniformSubsample (lib.filter densityFilter mapCloud))

end Vocabulary

/-! ## Sequencing -/

namespace Step

variable {ε α β : Type}

@[simp] theorem mk_some_bind (evs : List ε) (a : α) (f : α → Step ε β) :
    ((⟨evs, some a⟩ : Step ε α) >>= f) = ⟨evs ++ (f a).events, (f a).value⟩ := rfl

@[simp] theorem mk_none_bind (evs : List ε) (f : α → Step ε β) :
    ((⟨evs, none⟩ : Step ε α) >>= f) = ⟨evs, none⟩ := rfl

@[simp] theorem pure_def (a : α) : (pure a : Step ε α) = ⟨[], some a⟩ := rfl

end Step

/-! ## The size test -/

theorem ltOne_quotient (t c : Nat) : (DoubleValue.quotient t c).ltOne = true ↔ t < c := by
  unfold DoubleValue.quotient
  by_cases hc : c = 0
  · subst hc
    by_cases ht : t = 0 <;> simp [ht, DoubleValue.ltOne]
  · have hpos : (0 : ℚ) < (c : ℚ) := by exact_mod_cast Nat.pos_of_ne_zero hc
    simp only [hc, if_false, DoubleValue.ltOne, decide_eq_true_eq]
    rw [div_lt_one hpos]
    exact_mod_cast Iff.rfl

theorem quotient_of_pos (t c : Nat) (hc : 0 < c) :
    DoubleValue.quotient t c = .finite ((t : ℚ) / (c : ℚ)) := by
  simp [DoubleValue.quotient, Nat.pos_iff_ne_zero.mp hc]

/-- Rounding the quotient does not change the size test: for a rounding that
is monotone and leaves `1` and `1 - 2⁻⁵³` unchanged (both are `double`s), and
a positive count up to `2 ^ 53`, the rounded quotient is below `1` exactly
when the exact one is. -/
theorem ltOne_rounded_quotient (rnd : ℚ → ℚ) (hmono : Monotone rnd) (h1 : rnd 1 = 1)
    (hp : rnd (1 - 1 / 2 ^ 53) = 1 - 1 / 2 ^ 53) (t c : Nat) (hc : 0 < c) (hc53 : c ≤ 2 ^ 53) :
    (DoubleValue.finite (rnd ((t : ℚ) / (c : ℚ)))).ltOne = (DoubleValue.quotient t c).ltOne := by
  have hq : (0 : ℚ) < (c : ℚ) := by exact_mod_cast hc
  have hiff : rnd ((t : ℚ) / (c : ℚ)) < 1 ↔ t < c := by
    constructor
    · intro hlt
      by_contra hge
      have hle : (1 : ℚ) ≤ (t : ℚ) / (c : ℚ) := by
        rw [one_le_div hq]
        exact_mod_cast Nat.le_of_not_lt hge
      have := hmono hle
      rw [h1] at this
      exact absurd hlt (not_lt.mpr this)
    · intro hlt
      have hc53q : (c : ℚ) ≤ 2 ^ 53 := by exact_mod_cast hc53
      have htc : (t : ℚ) + 1 ≤ (c : ℚ) := by exact_mod_cast hlt
      have hle : (t : ℚ) / (c : ℚ) ≤ 1 - 1 / 2 ^ 53 := by
        rw [div_le_iff₀ hq]
        have h2 : (1 : ℚ) / 2 ^ 53 * (c : ℚ) ≤ 1 := by
          rw [div_mul_eq_mul_div, one_mul, div_le_one (by positivity)]
          exact hc53q
        linarith
      have := hmono hle
      rw [hp] at this
      have hlt1 : (1 : ℚ) - 1 / 2 ^ 53 < 1 := by norm_num
      exact lt_of_le_of_lt this hlt1
  rw [Bool.eq_iff_iff, ltOne_quotient]
  simpa [DoubleValue.ltOne] using hiff

section Blocks

variable {DP TP : Type}

/-! ## The blocks of the loop body -/

theorem controlSize_eq (lib : Library DP TP) (t : Nat) (m : DP) (rs : DataPointsFilter) :
    controlSize lib t m rs = ⟨resizeEvents lib t m, some (resized lib t m rs)⟩ := by
  by_cases h : t < lib.cols m
  · have h1 : (DoubleValue.quotient t (lib.cols m)).ltOne = true := (ltOne_quotient _ _).mpr h
    by_cases h2 : t < lib.cols (thinned lib m)
    · have h3 : (DoubleValue.quotient t (lib.cols (thinned lib m))).ltOne = true :=
        (ltOne_quotient _ _).mpr h2
      have h2' := h2
      have h3' := h3
      simp only [thinned] at h2' h3'
      simp [controlSize, resizeEvents, resized, thinned, h, h1, h2', h3', call, emit]
    · have h3 : (DoubleValue.quotient t (lib.cols (thinned lib m))).ltOne = false := by
        rw [← Bool.not_eq_true, ltOne_quotient]; exact h2
      have h2' := h2
      have h3' := h3
      simp only [thinned] at h2' h3'
      simp [controlSize, resizeEvents, resized, thinned, h, h1, h2', h3', call, emit]
  · have h1 : (DoubleValue.quotient t (lib.cols m)).ltOne = false := by
      rw [← Bool.not_eq_true, ltOne_quotient]; exact h
    simp [controlSize, resizeEvents, resized, h, h1]

theorem iteration_unsupported (lib : Library DP TP) (t : Nat) (out : String) (i : Nat)
    (e : FileInfo TP) (s : LoopState DP TP) (h : ¬ e.supported) :
    iteration lib t out i e s = ⟨[.cout .unsupportedFile], none⟩ := by
  simp only [FileInfo.supported, not_or] at h
  simp [iteration, h.1, h.2, emit, abort]

theorem iteration_noGroundTruth (lib : Library DP TP) (t : Nat) (out : String) (i : Nat)
    (e : FileInfo TP) (s : LoopState DP TP) (h : e.supported)
    (h0 : lib.rows e.groundTruthTransformation = 0) :
    iteration lib t out i e s
      = ⟨[loadEvent e, .cout .pointCloudLoaded, .cout .groundTruthRequired], none⟩ := by
  by_cases hv : e.readingExtension = ".vtk"
  · simp [iteration, loadEvent, hv, h0, emit, abort, call]
  · have hc : e.readingExtension = ".csv" := h.resolve_left hv
    simp [iteration, loadEvent, hc, h0, emit, abort, call]

theorem iteration_first (lib : Library DP TP) (t : Nat) (out : String)
    (e : FileInfo TP) (s : LoopState DP TP) (h : valid lib e) :
    iteration lib t out 0 e s
      = ⟨contributionEvents lib s.randSubsample e
            ++ saveEvents lib out 0 (contribution lib s.randSubsample e),
          some ⟨contribution lib s.randSubsample e, contribution lib s.randSubsample e,
            e.groundTruthTransformation, s.randSubsample⟩⟩ := by
  obtain ⟨hs, hr⟩ := h
  by_cases hv : e.readingExtension = ".vtk"
  · simp [iteration, contributionEvents, saveEvents, contribution, load, loadEvent, hv, hr,
      emit, call]
  · have hc : e.readingExtension = ".csv" := hs.resolve_left hv
    simp [iteration, contributionEvents, saveEvents, contribution, load, loadEvent, hc, hr,
      emit, call]

theorem iteration_next (lib : Library DP TP) (t : Nat) (out : String) (i : Nat)
    (e : FileInfo TP) (s : LoopState DP TP) (h : valid lib e) (hi : i ≠ 0) :
    iteration lib t out i e s
      = ⟨contributionEvents lib s.randSubsample e
            ++ .concatenate s.mapCloud (contribution lib s.randSubsample e)
            :: resizeEvents lib t (lib.concatenate s.mapCloud (contribution lib s.randSubsample e))
            ++ saveEvents lib out i
              (resized lib t (lib.concatenate s.mapCloud (contribution lib s.randSubsample e))
                s.randSubsample).1,
          some ⟨(resized lib t
                (lib.concatenate s.mapCloud (contribution lib s.randSubsample e))
                s.randSubsample).1,
            contribution lib s.randSubsample e, e.groundTruthTransformation,
            (resized lib t (lib.concatenate s.mapCloud (contribution lib s.randSubsample e))
                s.randSubsample).2⟩⟩ := by
  obtain ⟨hs, hr⟩ := h
  by_cases hv : e.readingExtension = ".vtk"
  · simp [iteration, contributionEvents, saveEvents, contribution, load, loadEvent, hv, hr, hi,
      emit, call, controlSize_eq]
  · have hc : e.readingExtension = ".csv" := hs.resolve_left hv
    simp [iteration, contributionEvents, saveEvents, contribution, load, loadEvent, hc, hr, hi,
      emit, call, controlSize_eq]

end Blocks

/-! ## Reading a trace -/

section Traces

variable {DP TP : Type}

theorem saves_append (xs ys : List (Event DP TP)) : saves (xs ++ ys) = saves xs ++ saves ys := by
  induction xs with
  | nil => rfl
  | cons x xs ih => cases x <;> simp [saves, ih]

theorem savedNames_append (xs ys : List (Event DP TP)) :
    savedNames (xs ++ ys) = savedNames xs ++ savedNames ys := by
  simp [savedNames, saves_append]

theorem saves_contributionEvents (lib : Library DP TP) (rs : DataPointsFilter)
    (e : FileInfo TP) : saves (contributionEvents lib rs e) = [] := by
  unfold contributionEvents loadEvent
  split <;> rfl

theorem saves_resizeEvents (lib : Library DP TP) (t : Nat) (m : DP) :
    saves (resizeEvents lib t m) = [] := by
  unfold resizeEvents
  split
  · split <;> rfl
  · rfl

theorem saves_saveEvents (lib : Library DP TP) (out : String) (i : Nat) (m : DP) :
    saves (saveEvents lib out i m) = [(m, outputFileNameIter lib out i)] := rfl

theorem saves_setupEvents (argv : List String) :
    saves (setupEvents argv : List (Event DP TP)) = [] := rfl

end Traces

/-! ## The loop and the whole program -/

section Loop

variable {DP TP : Type}

theorem Step.bind_assoc {ε α β γ : Type} (m : Step ε α) (f : α → Step ε β)
    (g : β → Step ε γ) : (m >>= f >>= g) = (m >>= fun a => f a >>= g) := by
  obtain ⟨evs, v⟩ := m
  cases v with
  | none => rfl
  | some a =>
    show Step.bind (Step.bind ⟨evs, some a⟩ f) g = Step.bind ⟨evs, some a⟩ (fun a => Step.bind (f a) g)
    simp only [Step.bind]
    cases h : (f a).value <;> simp [h]

theorem processingLoop_append (lib : Library DP TP) (t : Nat) (out : String)
    (pre rest : List (FileInfo TP)) (i : Nat) (s : LoopState DP TP) :
    processingLoop lib t out i (pre ++ rest) s
      = (processingLoop lib t out i pre s >>= processingLoop lib t out (i + pre.length) rest) := by
  induction pre generalizing i s with
  | nil => simp [processingLoop]
  | cons e pre ih =>
    have hlen : i + (e :: pre).length = i + 1 + pre.length := by
      simp only [List.length_cons]
      omega
    rw [hlen]
    show (iteration lib t out i e s >>= processingLoop lib t out (i + 1) (pre ++ rest)) = _
    simp only [processingLoop]
    rw [Step.bind_assoc]
    congr 1
    funext s1
    exact ih (i + 1) s1

/-- One iteration on a valid entry completes and saves the map once, under the
name of its counter. -/
theorem iteration_valid (lib : Library DP TP) (t : Nat) (out : String) (i : Nat)
    (e : FileInfo TP) (s : LoopState DP TP) (h : valid lib e) :
    ∃ evs s1, iteration lib t out i e s = ⟨evs, some s1⟩
      ∧ saves evs = [(s1.mapCloud, outputFileNameIter lib out i)] := by
  by_cases hi : i = 0
  · subst hi
    exact ⟨_, _, iteration_first lib t out e s h, by
      simp [saves_append, saves_contributionEvents, saves_saveEvents]⟩
  · exact ⟨_, _, iteration_next lib t out i e s h hi, by
      simp [saves_append, saves_contributionEvents, saves_saveEvents, saves,
        saves_resizeEvents]⟩

/-- One iteration on an entry that is not valid aborts before any filter and
any save. -/
theorem iteration_invalid (lib : Library DP TP) (t : Nat) (out : String) (i : Nat)
    (e : FileInfo TP) (s : LoopState DP TP) (h : ¬ valid lib e) :
    ∃ evs, iteration lib t out i e s = ⟨evs, none⟩
      ∧ ∀ ev ∈ evs, ev.isFilter = false ∧ ev.isSave = false := by
  by_cases hs : e.supported
  · have h0 : lib.rows e.groundTruthTransformation = 0 := by
      by_contra h0
      exact h ⟨hs, h0⟩
    refine ⟨_, iteration_noGroundTruth lib t out i e s hs h0, ?_⟩
    intro ev hev
    simp only [List.mem_cons, List.mem_singleton, List.not_mem_nil, or_false] at hev
    rcases hev with rfl | rfl | rfl
    · unfold loadEvent
      split <;> exact ⟨rfl, rfl⟩
    · exact ⟨rfl, rfl⟩
    · exact ⟨rfl, rfl⟩
  · refine ⟨_, iteration_unsupported lib t out i e s hs, ?_⟩
    intro ev hev
    simp only [List.mem_singleton] at hev
    subst hev
    exact ⟨rfl, rfl⟩

/-- Over valid entries the loop completes, with one save per entry under the
names of the counters in order. -/
theorem processingLoop_valid (lib : Library DP TP) (t : Nat) (out : String)
    (list : List (FileInfo TP)) (i : Nat) (s : LoopState DP TP)
    (h : ∀ e ∈ list, valid lib e) :
    ∃ evs s1, processingLoop lib t out i list s = ⟨evs, some s1⟩
      ∧ savedNames evs = (List.range' i list.length).map (outputFileNameIter lib out) := by
  induction list generalizing i s with
  | nil => exact ⟨[], s, rfl, rfl⟩
  | cons e rest ih =>
    obtain ⟨evs, s1, h1, hsv⟩ :=
      iteration_valid lib t out i e s (h e (List.mem_cons_self _ _))
    obtain ⟨evs2, s2, h2, hsv2⟩ :=
      ih (i + 1) s1 (fun x hx => h x (List.mem_cons_of_mem _ hx))
    refine ⟨evs ++ evs2, s2, ?_, ?_⟩
    · simp [processingLoop, h1, h2]
    · have hev : savedNames evs = [outputFileNameIter lib out i] := by
        simp [savedNames, hsv]
      rw [savedNames_append, hsv2, hev]
      simp [List.range']

/-- The loop aborts exactly when some entry is not valid. -/
theorem processingLoop_value_eq_none_iff (lib : Library DP TP) (t : Nat) (out : String)
    (list : List (FileInfo TP)) (i : Nat) (s : LoopState DP TP) :
    (processingLoop lib t out i list s).value = none ↔ ∃ e ∈ list, ¬ valid lib e := by
  induction list generalizing i s with
  | nil => simp [processingLoop]
  | cons e rest ih =>
    by_cases hv : valid lib e
    · obtain ⟨evs, s1, h1, -⟩ := iteration_valid lib t out i e s hv
      simp [processingLoop, h1, ih (i + 1) s1, hv]
    · obtain ⟨evs, h1, -⟩ := iteration_invalid lib t out i e s hv
      simp [processingLoop, h1, hv]

theorem setup_four (lib : Library DP TP) (argv : List String) :
    setup lib 4 argv
      = ⟨setupEvents argv, some (lib.fileInfoVector (argv.getD 1 ""),
          lib.lexicalCastUnsigned (argv.getD 2 ""), argv.getD 3 "", initialState lib)⟩ := by
  simp [setup, validateArgs, setupEvents, initialState, emit, call]

theorem setup_abort (lib : Library DP TP) (argc : Int) (argv : List String) (h : argc ≠ 4) :
    setup lib argc argv = ⟨[.usageError (argv.getD 0 "")], none⟩ := by
  simp [setup, validateArgs, h, emit, abort]

theorem finish_eq (lib : Library DP TP) (out : String) (m : DP) :
    finish lib out m
      = ⟨[.filter densityFilter m, .filter uniformSubsample (lib.filter densityFilter m),
            .filter densityFilter (lib.filter uniformSubsample (lib.filter densityFilter m)),
            .cout (.numberOfPoints (lib.cols (finalMap lib m))),
            .saveVTK (finalMap lib m) out, .cout (.outputFileName out)],
          some 0⟩ := by
  simp [finish, finalMap, emit, call]

/-- A run with four arguments whose loop completes. -/
theorem main_of_loop_some (lib : Library DP TP) (argv : List String)
    (evs : List (Event DP TP)) (s : LoopState DP TP)
    (h : processingLoop lib (lib.lexicalCastUnsigned (argv.getD 2 "")) (argv.getD 3 "") 0
        (lib.fileInfoVector (argv.getD 1 "")) (initialState lib) = ⟨evs, some s⟩) :
    main lib 4 argv
      = ⟨setupEvents argv ++ evs ++ (finish lib (argv.getD 3 "") s.mapCloud).events, some 0⟩ := by
  simp only [main, setup_four, Step.mk_some_bind, h, finish_eq, List.append_assoc]

/-- A run with four arguments whose loop aborts. -/
theorem main_of_loop_none (lib : Library DP TP) (argv : List String)
    (evs : List (Event DP TP))
    (h : processingLoop lib (lib.lexicalCastUnsigned (argv.getD 2 "")) (argv.getD 3 "") 0
        (lib.fileInfoVector (argv.getD 1 "")) (initialState lib) = ⟨evs, none⟩) :
    main lib 4 argv = ⟨setupEvents argv ++ evs, none⟩ := by
  simp only [main, setup_four, Step.mk_some_bind, h, Step.mk_none_bind]

end Loop

/-! ## Decimal rendering of the counter -/

section Decimal

theorem digitChar_inj_on (a b : Nat) (ha : a < 10) (hb : b < 10)
    (h : Nat.digitChar a = Nat.digitChar b) : a = b := by
  interval_cases a <;> interval_cases b <;> first | rfl | (exfalso; revert h; decide)

theorem toDigitsCore_eq (fuel : Nat) : ∀ (n : Nat) (ds : List Char), n < fuel → 0 < n →
    Nat.toDigitsCore 10 fuel n ds = ((Nat.digits 10 n).reverse.map Nat.digitChar) ++ ds := by
  induction fuel with
  | zero => intro n ds h; omega
  | succ fuel ih =>
    intro n ds hlt hpos
    rw [Nat.digits_def' (by norm_num) hpos]
    simp only [Nat.toDigitsCore]
    by_cases h0 : n / 10 = 0
    · simp [h0]
    · have hlt2 : n / 10 < fuel := by omega
      simp only [h0, if_false]
      rw [ih (n / 10) _ hlt2 (Nat.pos_of_ne_zero h0)]
      simp

theorem toDigits_eq (n : Nat) (hpos : 0 < n) :
    Nat.toDigits 10 n = (Nat.digits 10 n).reverse.map Nat.digitChar := by
  unfold Nat.toDigits
  rw [toDigitsCore_eq (n + 1) n [] (by omega) hpos]
  simp

theorem toDigits_zero : Nat.toDigits 10 0 = ['0'] := by rfl

theorem toDigits_injective (a b : Nat) (h : Nat.toDigits 10 a = Nat.toDigits 10 b) : a = b := by
  have key : ∀ n, 0 < n → Nat.toDigits 10 n ≠ ['0'] := by
    intro n hn hEq
    rw [toDigits_eq n hn] at hEq
    have hne : Nat.digits 10 n ≠ [] := Nat.digits_ne_nil_iff_ne_zero.mpr (by omega)
    have hlast := Nat.getLast_digit_ne_zero 10 (m := n) (by omega)
    have hrev : (Nat.digits 10 n).reverse = [(Nat.digits 10 n).getLast hne] := by
      cases hr : (Nat.digits 10 n).reverse with
      | nil => simp at hr; exact absurd hr hne
      | cons x xs =>
        rw [hr] at hEq
        simp only [List.map_cons, List.cons.injEq, List.map_eq_nil_iff] at hEq
        obtain ⟨-, hxs⟩ := hEq
        subst hxs
        have : Nat.digits 10 n = [x] := by
          have := congrArg List.reverse hr
          simpa using this
        simp [this]
    rw [hrev] at hEq
    simp only [List.map_cons, List.map_nil, List.cons.injEq, and_true] at hEq
    have hlt : (Nat.digits 10 n).getLast hne < 10 :=
      Nat.digits_lt_base (by norm_num) (List.getLast_mem hne)
    exact hlast (digitChar_inj_on _ 0 hlt (by norm_num) hEq)
  rcases Nat.eq_zero_or_pos a with ha | ha <;> rcases Nat.eq_zero_or_pos b with hb | hb
  · omega
  · subst ha; exact absurd h.symm (key b hb)
  · subst hb; exact absurd h (key a ha)
  · rw [toDigits_eq a ha, toDigits_eq b hb] at h
    have hinj : ∀ (xs ys : List Nat), (∀ x ∈ xs, x < 10) → (∀ y ∈ ys, y < 10) →
        xs.map Nat.digitChar = ys.map Nat.digitChar → xs = ys := by
      intro xs
      induction xs with
      | nil => intro ys _ _ h; cases ys <;> simp_all
      | cons x xs ih =>
        intro ys hx hy h
        cases ys with
        | nil => simp at h
        | cons y ys =>
          simp only [List.map_cons, List.cons.injEq] at h
          have h1 := digitChar_inj_on x y (hx x (List.mem_cons_self _ _))
            (hy y (List.mem_cons_self _ _)) h.1
          have h2 := ih ys (fun z hz => hx z (List.mem_cons_of_mem _ hz))
            (fun z hz => hy z (List.mem_cons_of_mem _ hz)) h.2
          rw [h1, h2]
    have := hinj _ _ (fun x hx => Nat.digits_lt_base (by norm_num) (List.mem_reverse.mp hx))
      (fun x hx => Nat.digits_lt_base (by norm_num) (List.mem_reverse.mp hx)) h
    have := List.reverse_injective this
    exact Nat.digits_inj_iff.mp this

theorem toString_nat_injective (a b : Nat) (h : toString a = toString b) : a = b := by
  apply toDigits_injective
  have : (Nat.toDigits 10 a).asString = (Nat.toDigits 10 b).asString := h
  exact congrArg String.data this

theorem append_left_cancel_string (s a b : String) (h : s ++ a = s ++ b) : a = b := by
  have := congrArg String.data h
  simp only [String.data_append] at this
  exact String.ext (List.append_cancel_left this)

end Decimal

section Helpers

variable {DP TP : Type}

theorem not_valid_iff (lib : Library DP TP) (e : FileInfo TP) :
    ¬ valid lib e ↔
      (e.readingExtension ≠ ".vtk" ∧ e.readingExtension ≠ ".csv")
        ∨ lib.rows e.groundTruthTransformation = 0 := by
  unfold valid FileInfo.supported
  tauto

theorem step_eta {ε α : Type} (m : Step ε α) (a : α) (h : m.value = some a) :
    m = ⟨m.events, some a⟩ := by
  cases m
  simp_all

theorem step_eta_none {ε α : Type} (m : Step ε α) (h : m.value = none) :
    m = ⟨m.events, none⟩ := by
  cases m
  simp_all

/-- The loop up to the first entry that is not valid: the iterations before it
complete, and the aborting one applies no filter and saves nothing. -/
theorem processingLoop_first_invalid (lib : Library DP TP) (t : Nat) (out : String)
    (pre : List (FileInfo TP)) (bad : FileInfo TP) (post : List (FileInfo TP))
    (s : LoopState DP TP) (hpre : ∀ e ∈ pre, valid lib e) (hbad : ¬ valid lib bad) :
    ∃ evs s1 tail, processingLoop lib t out 0 pre s = ⟨evs, some s1⟩
      ∧ processingLoop lib t out 0 (pre ++ bad :: post) s = ⟨evs ++ tail, none⟩
      ∧ savedNames evs = (List.range pre.length).map (outputFileNameIter lib out)
      ∧ ∀ ev ∈ tail, ev.isFilter = false ∧ ev.isSave = false := by
  obtain ⟨evs, s1, h1, hn⟩ := processingLoop_valid lib t out pre 0 s hpre
  obtain ⟨tail, h2, htail⟩ := iteration_invalid lib t out (0 + pre.length) bad s1 hbad
  refine ⟨evs, s1, tail, h1, ?_, ?_, htail⟩
  · rw [processingLoop_append, h1]
    simp only [processingLoop, h2, Step.mk_some_bind, Step.mk_none_bind]
  · rw [hn, List.range_eq_range']

/-- The last save of a run whose loop completes is the final map. -/
theorem saves_main_getLast (lib : Library DP TP) (argv : List String)
    (evs : List (Event DP TP)) (s : LoopState DP TP)
    (h : processingLoop lib (lib.lexicalCastUnsigned (argv.getD 2 "")) (argv.getD 3 "") 0
        (lib.fileInfoVector (argv.getD 1 "")) (initialState lib) = ⟨evs, some s⟩) :
    (saves (main lib 4 argv).events).getLast? = some (finalMap lib s.mapCloud, argv.getD 3 "") := by
  have hs : saves (main lib 4 argv).events
      = (saves (setupEvents argv : List (Event DP TP)) ++ saves evs)
          ++ [(finalMap lib s.mapCloud, argv.getD 3 "")] := by
    rw [main_of_loop_some lib argv evs s h, finish_eq]
    simp only [saves_append]
    rfl
  rw [hs, List.getLast?_concat]

theorem saves_eq_nil_of_not_isSave (evs : List (Event DP TP))
    (h : ∀ ev ∈ evs, ev.isSave = false) : saves evs = [] := by
  induction evs with
  | nil => rfl
  | cons x xs ih =>
    have hx := h x (List.mem_cons_self _ _)
    have hxs := ih (fun ev hev => h ev (List.mem_cons_of_mem _ hev))
    cases x <;> simp_all [saves, Event.isSave]

theorem outputFileNameIter_injective (lib : Library DP TP) (out : String) (i j : Nat)
    (h : outputFileNameIter lib out i = outputFileNameIter lib out j) : i = j := by
  unfold outputFileNameIter at h
  exact toString_nat_injective i j (append_left_cancel_string _ _ _ h)

/-- The names that the loop saves under are those of consecutive counters. -/
theorem processingLoop_savedNames (lib : Library DP TP) (t : Nat) (out : String)
    (list : List (FileInfo TP)) (i : Nat) (s : LoopState DP TP) :
    ∃ k, k ≤ list.length ∧ savedNames (processingLoop lib t out i list s).events
      = (List.range' i k).map (outputFileNameIter lib out) := by
  induction list generalizing i s with
  | nil => exact ⟨0, le_refl _, rfl⟩
  | cons e rest ih =>
    by_cases hv : valid lib e
    · obtain ⟨evs, s1, h1, hsv⟩ := iteration_valid lib t out i e s hv
      obtain ⟨k, hk, hn⟩ := ih (i + 1) s1
      refine ⟨k + 1, by simp only [List.length_cons]; omega, ?_⟩
      have hev : savedNames evs = [outputFileNameIter lib out i] := by
        simp [savedNames, hsv]
      simp only [processingLoop, h1, Step.mk_some_bind, savedNames_append, hn, hev]
      simp [List.range'_succ]
    · obtain ⟨evs, h1, htail⟩ := iteration_invalid lib t out i e s hv
      refine ⟨0, Nat.zero_le _, ?_⟩
      simp only [processingLoop, h1, Step.mk_none_bind]
      simp [savedNames, saves_eq_nil_of_not_isSave evs (fun ev hev => (htail ev hev).2)]

theorem not_createFilter_mem_contributionEvents (lib : Library DP TP) (rs : DataPointsFilter)
    (e : FileInfo TP) (f : DataPointsFilter) :
    Event.createFilter f ∉ contributionEvents lib rs e := by
  unfold contributionEvents loadEvent
  split <;> simp

/-- When a random-sampling filter created with `prob = q` keeps at most
`q · c` of `c` points, the resizing block leaves a map within the budget. -/
theorem resized_cols_le (lib : Library DP TP) (t : Nat) (m : DP) (rs : DataPointsFilter)
    (hrand : ∀ (q : ℚ) (c : DP), 0 ≤ q → q < 1 →
      ((lib.cols (lib.filter (resizeFilter (.finite q)) c) : ℕ) : ℚ) ≤ q * (lib.cols c : ℚ)) :
    lib.cols (resized lib t m rs).1 ≤ t := by
  unfold resized
  split
  · split
    · rename_i h1 h2
      have hpos : 0 < lib.cols (thinned lib m) := by omega
      have hq : (0 : ℚ) < (lib.cols (thinned lib m) : ℚ) := by exact_mod_cast hpos
      rw [quotient_of_pos t _ hpos]
      have hlt : (t : ℚ) / (lib.cols (thinned lib m) : ℚ) < 1 := by
        rw [div_lt_one hq]
        exact_mod_cast h2
      have := hrand ((t : ℚ) / (lib.cols (thinned lib m) : ℚ)) (thinned lib m)
        (by positivity) hlt
      rw [div_mul_cancel₀ _ (ne_of_gt hq)] at this
      exact_mod_cast this
    · rename_i h1 h2
      simpa using h2
  · rename_i h1
    simpa using h1

/-- From the second iteration on, the loop over valid entries keeps the map
within the budget, under the assumption of `resized_cols_le`. -/
theorem processingLoop_cols_le (lib : Library DP TP) (t : Nat) (out : String)
    (hrand : ∀ (q : ℚ) (c : DP), 0 ≤ q → q < 1 →
      ((lib.cols (lib.filter (resizeFilter (.finite q)) c) : ℕ) : ℚ) ≤ q * (lib.cols c : ℚ))
    (list : List (FileInfo TP)) (i : Nat) (s : LoopState DP TP) (hi : i ≠ 0)
    (hv : ∀ e ∈ list, valid lib e) (h0 : list ≠ [] ∨ lib.cols s.mapCloud ≤ t) :
    ∃ evs s1, processingLoop lib t out i list s = ⟨evs, some s1⟩ ∧ lib.cols s1.mapCloud ≤ t := by
  induction list generalizing i s with
  | nil =>
    rcases h0 with h0 | h0
    · exact absurd rfl h0
    · exact ⟨[], s, rfl, h0⟩
  | cons e rest ih =>
    have h1 := iteration_next lib t out i e s (hv e (List.mem_cons_self _ _)) hi
    obtain ⟨evs2, s2, h2, hle⟩ := ih (i + 1)
      ⟨(resized lib t (lib.concatenate s.mapCloud (contribution lib s.randSubsample e))
          s.randSubsample).1,
        contribution lib s.randSubsample e, e.groundTruthTransformation,
        (resized lib t (lib.concatenate s.mapCloud (contribution lib s.randSubsample e))
          s.randSubsample).2⟩
      (Nat.succ_ne_zero i)
      (fun x hx => hv x (List.mem_cons_of_mem _ hx))
      (Or.inr (resized_cols_le lib t
        (lib.concatenate s.mapCloud (contribution lib s.randSubsample e)) s.randSubsample hrand))
    refine ⟨(iteration lib t out i e s).events ++ evs2, s2, ?_, hle⟩
    simp only [processingLoop, h1, Step.mk_some_bind, h2]

end Helpers

/-! ## The library with flooring random sampling -/

theorem floorLib_filter_le (list : List (FileInfo Nat)) (budget : Nat) (f : DataPointsFilter)
    (c : Nat) : (floorLib list budget).cols ((floorLib list budget).filter f c)
      ≤ (floorLib list budget).cols c := by
  simp only [floorLib]
  split
  · split
    · exact min_le_left _ _
    · exact le_refl _
  · exact le_refl _

theorem floorLib_resizeFilter_le (list : List (FileInfo Nat)) (budget : Nat) (q : ℚ) (c : Nat)
    (hq : 0 ≤ q) (_ : q < 1) :
    (((floorLib list budget).cols
        ((floorLib list budget).filter (resizeFilter (.finite q)) c) : ℕ) : ℚ)
      ≤ q * ((floorLib list budget).cols c : ℚ) := by
  have hfl : ((⌊q * (c : ℚ)⌋₊ : ℕ) : ℚ) ≤ q * (c : ℚ) := Nat.floor_le (by positivity)
  have hmin : ((min c ⌊q * (c : ℚ)⌋₊ : ℕ) : ℚ) ≤ ((⌊q * (c : ℚ)⌋₊ : ℕ) : ℚ) := by
    exact_mod_cast min_le_right _ _
  simpa [floorLib, resizeFilter] using le_trans hmin hfl

/-! ## The statements -/

section Statements

variable {DP TP : Type}

/-- C1: when all `N` entries of the list have a supported extension and a
ground-truth transformation, then whatever the library's functions return, a
run of `main` with four arguments returns `0` and calls `saveVTK` exactly
`N + 1` times: once at the end of each iteration, under the names of the
counters `0, ..., N - 1` in that order, and once more, last, for
`outputFileName`. -/
theorem main_saves_once_per_entry_then_final (lib : Library DP TP) (argv : List String)
    (h : ∀ e ∈ lib.fileInfoVector (argv.getD 1 ""), valid lib e) :
    (main lib 4 argv).value = some 0
      ∧ savedNames (main lib 4 argv).events
          = (List.range (lib.fileInfoVector (argv.getD 1 "")).length).map
              (outputFileNameIter lib (argv.getD 3 "")) ++ [argv.getD 3 ""]
      ∧ (saves (main lib 4 argv).events).length
          = (lib.fileInfoVector (argv.getD 1 "")).length + 1 := by
  obtain ⟨evs, s, hloop, hn⟩ := processingLoop_valid lib
    (lib.lexicalCastUnsigned (argv.getD 2 "")) (argv.getD 3 "")
    (lib.fileInfoVector (argv.getD 1 "")) 0 (initialState lib) h
  have hnames : savedNames (main lib 4 argv).events
      = (List.range (lib.fileInfoVector (argv.getD 1 "")).length).map
          (outputFileNameIter lib (argv.getD 3 "")) ++ [argv.getD 3 ""] := by
    rw [main_of_loop_some lib argv evs s hloop, finish_eq]
    simp only [savedNames_append, hn, List.range_eq_range']
    simp [savedNames, saves, saves_setupEvents]
  refine ⟨?_, hnames, ?_⟩
  · rw [main_of_loop_some lib argv evs s hloop]
  · have hlen := congrArg List.length hnames
    simpa [savedNames] using hlen

/-- C3: `validateArgs` aborts exactly when `argc` is not `4`, and for
`argc = 4` it returns without having done anything.  `main` calls it first:
when `argc` is not `4` the run of `main` is the run of `validateArgs`, so the
process has aborted with the list of files not read and no filter created. -/
theorem validateArgs_aborts_iff_argc_ne_four (lib : Library DP TP) (argc : Int)
    (argv : List String) :
    ((validateArgs argc argv : Step (Event DP TP) Unit).value = none ↔ argc ≠ 4)
      ∧ (argc = 4 → (validateArgs argc argv : Step (Event DP TP) Unit) = ⟨[], some ()⟩)
      ∧ (argc ≠ 4 →
          (main lib argc argv).value = none
            ∧ (main lib argc argv).events
                = (validateArgs argc argv : Step (Event DP TP) Unit).events
            ∧ ∀ ev ∈ (main lib argc argv).events, ev.isListOrFilterCreation = false) := by
  refine ⟨?_, ?_, ?_⟩
  · by_cases h : argc = 4 <;> simp [validateArgs, h, emit, abort]
  · intro h
    simp [validateArgs, h]
  · intro h
    have hm : main lib argc argv = ⟨[.usageError (argv.getD 0 "")], none⟩ := by
      simp only [main, setup_abort lib argc argv h, Step.mk_none_bind]
    have hv : (validateArgs argc argv : Step (Event DP TP) Unit)
        = ⟨[.usageError (argv.getD 0 "")], none⟩ := by
      simp [validateArgs, h, emit, abort]
    rw [hm, hv]
    refine ⟨rfl, rfl, ?_⟩
    intro ev hev
    simp only [List.mem_singleton] at hev
    subst hev
    rfl

/-- C4: with `argc = 4`, `main` aborts exactly when some entry of the list has
a reading extension that is neither `".vtk"` nor `".csv"` or a ground-truth
transformation with zero rows, and otherwise it returns `0`.  The abort is at
the first such entry: if `k` entries precede it, the `k` iterations for them
complete with their `k` intermediate saves, and what the run does after them
applies no filter and saves nothing, so the run has exactly those `k` saves
and no final one. -/
theorem main_aborts_iff_some_entry_invalid (lib : Library DP TP) (argv : List String) :
    ((main lib 4 argv).value = none ↔
        ∃ e ∈ lib.fileInfoVector (argv.getD 1 ""),
          (e.readingExtension ≠ ".vtk" ∧ e.readingExtension ≠ ".csv")
            ∨ lib.rows e.groundTruthTransformation = 0)
      ∧ ((main lib 4 argv).value ≠ none → (main lib 4 argv).value = some 0)
      ∧ ∀ pre bad post, lib.fileInfoVector (argv.getD 1 "") = pre ++ bad :: post →
          (∀ e ∈ pre, valid lib e) → ¬ valid lib bad →
          ∃ evs s tail,
            processingLoop lib (lib.lexicalCastUnsigned (argv.getD 2 "")) (argv.getD 3 "") 0
                pre (initialState lib) = ⟨evs, some s⟩
              ∧ main lib 4 argv = ⟨setupEvents argv ++ evs ++ tail, none⟩
              ∧ savedNames evs
                  = (List.range pre.length).map (outputFileNameIter lib (argv.getD 3 ""))
              ∧ (∀ ev ∈ tail, ev.isFilter = false ∧ ev.isSave = false)
              ∧ savedNames (main lib 4 argv).events
                  = (List.range pre.length).map (outputFileNameIter lib (argv.getD 3 "")) := by
  have hcases : ∀ v, (processingLoop lib (lib.lexicalCastUnsigned (argv.getD 2 ""))
      (argv.getD 3 "") 0 (lib.fileInfoVector (argv.getD 1 "")) (initialState lib)).value = v →
      (main lib 4 argv).value = v.map (fun _ => 0) := by
    intro v hv
    cases v with
    | none => rw [main_of_loop_none lib argv _ (step_eta_none _ hv)]; rfl
    | some s => rw [main_of_loop_some lib argv _ s (step_eta _ s hv)]; rfl
  refine ⟨?_, ?_, ?_⟩
  · rw [hcases _ rfl, Option.map_eq_none', processingLoop_value_eq_none_iff]
    simp only [not_valid_iff]
  · intro _
    rw [hcases _ rfl] at *
    cases hv : (processingLoop lib (lib.lexicalCastUnsigned (argv.getD 2 ""))
      (argv.getD 3 "") 0 (lib.fileInfoVector (argv.getD 1 "")) (initialState lib)).value
    · simp_all
    · rfl
  · intro pre bad post hlist hpre hbad
    obtain ⟨evs, s, tail, h1, h2, hn, htail⟩ :=
      processingLoop_first_invalid lib (lib.lexicalCastUnsigned (argv.getD 2 ""))
        (argv.getD 3 "") pre bad post (initialState lib) hpre hbad
    rw [← hlist] at h2
    have hm := main_of_loop_none lib argv _ h2
    refine ⟨evs, s, tail, h1, ?_, hn, htail, ?_⟩
    · rw [hm, List.append_assoc]
    · rw [hm]
      simp only [savedNames_append, hn]
      simp [savedNames, saves_setupEvents,
        saves_eq_nil_of_not_isSave tail (fun ev hev => (htail ev hev).2)]

/-- C10: when the loop completes with the map `M`, the run ends with
`densityFilter`, `uniformSubsample` and `densityFilter` applied in turn to `M`
and the result saved to `outputFileName`: nothing after the loop reads the
budget or applies a random-sampling filter.  For an empty list `M` is the
default empty cloud. -/
theorem final_map_is_density_uniform_density (lib : Library DP TP) (argv : List String)
    (s : LoopState DP TP)
    (h : (processingLoop lib (lib.lexicalCastUnsigned (argv.getD 2 "")) (argv.getD 3 "") 0
        (lib.fileInfoVector (argv.getD 1 "")) (initialState lib)).value = some s) :
    main lib 4 argv
        = ⟨setupEvents argv
            ++ (processingLoop lib (lib.lexicalCastUnsigned (argv.getD 2 "")) (argv.getD 3 "") 0
                (lib.fileInfoVector (argv.getD 1 "")) (initialState lib)).events
            ++ [.filter densityFilter s.mapCloud,
                .filter uniformSubsample (lib.filter densityFilter s.mapCloud),
                .filter densityFilter
                  (lib.filter uniformSubsample (lib.filter densityFilter s.mapCloud)),
                .cout (.numberOfPoints (lib.cols (lib.filter densityFilter
                  (lib.filter uniformSubsample (lib.filter densityFilter s.mapCloud))))),
                .saveVTK (lib.filter densityFilter
                  (lib.filter uniformSubsample (lib.filter densityFilter s.mapCloud)))
                  (argv.getD 3 ""),
                .cout (.outputFileName (argv.getD 3 ""))],
          some 0⟩
      ∧ (saves (main lib 4 argv).events).getLast?
          = some (lib.filter densityFilter
              (lib.filter uniformSubsample (lib.filter densityFilter s.mapCloud)), argv.getD 3 "")
      ∧ (lib.fileInfoVector (argv.getD 1 "") = [] → s.mapCloud = lib.emptyCloud) := by
  have hm := main_of_loop_some lib argv _ s (step_eta _ s h)
  rw [finish_eq] at hm
  refine ⟨hm, saves_main_getLast lib argv _ s (step_eta _ s h), ?_⟩
  · intro hnil
    rw [hnil] at h
    simp only [processingLoop, Step.pure_def, Option.some.injEq] at h
    rw [← h]
    rfl

/-- C7: for a valid entry, whatever the counter and the state, the iteration
loads the entry, applies `removeScanner`, the filter held in `randSubsample`,
`normalFilter`, `orientNormalFilter` and `shadowFilter` in this order, and
transforms the result with the entry's own ground-truth transformation, whatever
`T` held before.  For the counter `0` that cloud becomes the map; for another
counter it is concatenated onto the map and only then the map is resized.  The
save is the last library call of the iteration and is given the map as the
resizing left it. -/
theorem iteration_load_filter_transform_accumulate (lib : Library DP TP) (t : Nat)
    (out : String) (i : Nat) (e : FileInfo TP) (s : LoopState DP TP) (h : valid lib e) :
    ∃ s1 accumulating,
      iteration lib t out i e s
          = ⟨contributionEvents lib s.randSubsample e ++ accumulating
              ++ [.cout (.numberOfPoints (lib.cols s1.mapCloud)),
                  .saveVTK s1.mapCloud (outputFileNameIter lib out i),
                  .cout (.outputFileName (outputFileNameIter lib out i))],
            some s1⟩
        ∧ s1.newCloud
            = lib.apply transformations
                (lib.filter shadowFilter (lib.filter orientNormalFilter (lib.filter normalFilter
                  (lib.filter s.randSubsample (lib.filter removeScanner (load lib e))))))
                e.groundTruthTransformation
        ∧ s1.T = e.groundTruthTransformation
        ∧ (i = 0 → accumulating = [] ∧ s1.mapCloud = s1.newCloud
            ∧ s1.randSubsample = s.randSubsample)
        ∧ (i ≠ 0 →
            controlSize lib t (lib.concatenate s.mapCloud s1.newCloud) s.randSubsample
                = ⟨accumulating.tail, some (s1.mapCloud, s1.randSubsample)⟩
              ∧ accumulating.head? = some (.concatenate s.mapCloud s1.newCloud)) := by
  by_cases hi : i = 0
  · subst hi
    refine ⟨⟨contribution lib s.randSubsample e, contribution lib s.randSubsample e,
      e.groundTruthTransformation, s.randSubsample⟩, [], ?_, rfl, rfl,
      fun _ => ⟨rfl, rfl, rfl⟩, fun hne => absurd rfl hne⟩
    rw [iteration_first lib t out e s h]
    simp [saveEvents]
  · refine ⟨⟨(resized lib t (lib.concatenate s.mapCloud (contribution lib s.randSubsample e))
          s.randSubsample).1,
        contribution lib s.randSubsample e, e.groundTruthTransformation,
        (resized lib t (lib.concatenate s.mapCloud (contribution lib s.randSubsample e))
          s.randSubsample).2⟩,
      .concatenate s.mapCloud (contribution lib s.randSubsample e)
        :: resizeEvents lib t (lib.concatenate s.mapCloud (contribution lib s.randSubsample e)),
      ?_, rfl, rfl, fun h0 => absurd h0 hi, fun _ => ⟨?_, rfl⟩⟩
    · rw [iteration_next lib t out i e s h hi]
      simp [saveEvents]
    · rw [controlSize_eq]
      rfl

/-- C5: in an iteration with a counter other than `0` on a valid entry, the
resizing block runs on the map `m` right after the concatenation.  With
`c = cols m` and the budget `t`: the test `t / c < 1` holds exactly when
`c > t` for `c > 0` and fails for `c = 0`; the block does nothing when `c ≤ t`,
and applies `densityFilter` then `uniformSubsample` when `c > t`; after these
it creates and applies a random-sampling filter exactly when the count of the
map they left still exceeds `t`. -/
theorem resizing_runs_iff_count_exceeds_budget (lib : Library DP TP) (t : Nat)
    (out : String) (i : Nat) (e : FileInfo TP) (s : LoopState DP TP)
    (hi : i ≠ 0) (h : valid lib e) (m : DP)
    (hm : m = lib.concatenate s.mapCloud (contribution lib s.randSubsample e)) :
    (∃ before after, (iteration lib t out i e s).events
        = before ++ .concatenate s.mapCloud (contribution lib s.randSubsample e)
            :: (controlSize lib t m s.randSubsample).events ++ after)
      ∧ (∀ c, 0 < c → ((DoubleValue.quotient t c).ltOne = true ↔ c > t))
      ∧ (DoubleValue.quotient t 0).ltOne = false
      ∧ (¬ lib.cols m > t → controlSize lib t m s.randSubsample = ⟨[], some (m, s.randSubsample)⟩)
      ∧ (lib.cols m > t →
          ¬ lib.cols (lib.filter uniformSubsample (lib.filter densityFilter m)) > t →
          controlSize lib t m s.randSubsample
            = ⟨[.filter densityFilter m, .filter uniformSubsample (lib.filter densityFilter m)],
                some (lib.filter uniformSubsample (lib.filter densityFilter m), s.randSubsample)⟩)
      ∧ (lib.cols m > t →
          lib.cols (lib.filter uniformSubsample (lib.filter densityFilter m)) > t →
          ∃ probToKeep,
            controlSize lib t m s.randSubsample
              = ⟨[.filter densityFilter m, .filter uniformSubsample (lib.filter densityFilter m),
                  .cout (.randomlyKeep probToKeep), .createFilter (resizeFilter probToKeep),
                  .filter (resizeFilter probToKeep)
                    (lib.filter uniformSubsample (lib.filter densityFilter m))],
                some (lib.filter (resizeFilter probToKeep)
                    (lib.filter uniformSubsample (lib.filter densityFilter m)),
                  resizeFilter probToKeep)⟩) := by
  refine ⟨?_, fun c _ => ltOne_quotient t c, ?_, ?_, ?_, ?_⟩
  · refine ⟨contributionEvents lib s.randSubsample e, saveEvents lib out i
      (resized lib t (lib.concatenate s.mapCloud (contribution lib s.randSubsample e))
        s.randSubsample).1, ?_⟩
    rw [iteration_next lib t out i e s h hi, controlSize_eq, hm]
  · rw [← Bool.not_eq_true, ltOne_quotient]
    omega
  · intro h1
    rw [controlSize_eq]
    simp [resizeEvents, resized, h1]
  · intro h1 h2
    have h1' : t < lib.cols m := h1
    rw [controlSize_eq]
    simp [resizeEvents, resized, thinned, h1', h2]
  · intro h1 h2
    have h1' : t < lib.cols m := h1
    have h2' : t < lib.cols (lib.filter uniformSubsample (lib.filter densityFilter m)) := h2
    refine ⟨.quotient t (lib.cols (lib.filter uniformSubsample (lib.filter densityFilter m))), ?_⟩
    rw [controlSize_eq]
    simp [resizeEvents, resized, thinned, h1', h2']

/-- C8: whenever an iteration creates a filter, it is a
`RandomSamplingDataPointsFilter` whose `prob` is the budget divided by `c`, the
point count of the concatenated map after `densityFilter` and
`uniformSubsample`; `c` is positive, `0 ≤ prob < 1`, and `prob` is `0` exactly
when the budget is `0`. -/
theorem created_filter_prob_is_budget_over_count (lib : Library DP TP) (t : Nat)
    (out : String) (i : Nat) (e : FileInfo TP) (s : LoopState DP TP) (f : DataPointsFilter)
    (c : Nat)
    (hc : c = lib.cols (lib.filter uniformSubsample (lib.filter densityFilter
        (lib.concatenate s.mapCloud (contribution lib s.randSubsample e)))))
    (hf : Event.createFilter f ∈ (iteration lib t out i e s).events) :
    0 < c
      ∧ f = ⟨"RandomSamplingDataPointsFilter", [("prob", .toParam (.finite ((t : ℚ) / (c : ℚ))))]⟩
      ∧ 0 ≤ (t : ℚ) / (c : ℚ) ∧ (t : ℚ) / (c : ℚ) < 1
      ∧ ((t : ℚ) / (c : ℚ) = 0 ↔ t = 0) := by
  by_cases hv : valid lib e
  · by_cases hi : i = 0
    · subst hi
      rw [iteration_first lib t out e s hv] at hf
      simp only [List.mem_append] at hf
      rcases hf with hf | hf
      · exact absurd hf (not_createFilter_mem_contributionEvents lib _ e f)
      · simp [saveEvents] at hf
    · rw [iteration_next lib t out i e s hv hi] at hf
      simp only [List.mem_append, List.mem_cons] at hf
      rcases hf with (hf | hf | hf) | hf
      · exact absurd hf (not_createFilter_mem_contributionEvents lib _ e f)
      · simp at hf
      · unfold resizeEvents thinned at hf
        rw [← hc] at hf
        split at hf
        · split at hf
          · rename_i h1 h2
            have hpos : 0 < c := by omega
            have hq : (0 : ℚ) < (c : ℚ) := by exact_mod_cast hpos
            simp only [List.cons_append, List.nil_append, List.mem_cons, Event.createFilter.injEq,
              List.not_mem_nil, or_false, false_or, reduceCtorEq] at hf
            refine ⟨hpos, ?_, ?_, ?_, ?_⟩
            · rw [hf, quotient_of_pos t c hpos]
              rfl
            · positivity
            · rw [div_lt_one hq]
              exact_mod_cast h2
            · rw [div_eq_zero_iff]
              constructor
              · rintro (h0 | h0)
                · exact_mod_cast h0
                · exact absurd h0 (ne_of_gt hq)
              · intro h0
                left
                exact_mod_cast h0
          · simp at hf
        · simp at hf
      · simp [saveEvents] at hf
  · obtain ⟨evs, h1, hno⟩ : ∃ evs, iteration lib t out i e s = ⟨evs, none⟩
        ∧ ∀ ev ∈ evs, ∀ g, ev ≠ Event.createFilter g := by
      by_cases hs : e.supported
      · have h0 : lib.rows e.groundTruthTransformation = 0 := by
          by_contra h0
          exact hv ⟨hs, h0⟩
        refine ⟨_, iteration_noGroundTruth lib t out i e s hs h0, ?_⟩
        intro ev hev g
        simp only [List.mem_cons, List.mem_singleton, List.not_mem_nil, or_false] at hev
        rcases hev with rfl | rfl | rfl
        · unfold loadEvent
          split <;> simp
        · simp
        · simp
      · refine ⟨_, iteration_unsupported lib t out i e s hs, ?_⟩
        intro ev hev g
        simp only [List.mem_singleton] at hev
        subst hev
        simp
    rw [h1] at hf
    exact absurd rfl (hno _ hf f)

/-- C9: the intermediate save of the iteration with counter `i` goes to the
stem of `outputFileName` followed by `"_"` and the decimal digits of `i`;
different counters give different names, and the names that the loop of one
run saves under are pairwise distinct. -/
theorem intermediate_names_pairwise_distinct (lib : Library DP TP) (t : Nat) (out : String)
    (list : List (FileInfo TP)) (s : LoopState DP TP) :
    (∀ i, outputFileNameIter lib out i
        = lib.stem out ++ "_" ++ String.mk (Nat.toDigits 10 i))
      ∧ (∀ i, 0 < i → Nat.toDigits 10 i = (Nat.digits 10 i).reverse.map Nat.digitChar)
      ∧ (∀ i j, i ≠ j → outputFileNameIter lib out i ≠ outputFileNameIter lib out j)
      ∧ (savedNames (processingLoop lib t out 0 list s).events).Nodup
      ∧ ((∀ e ∈ list, valid lib e) →
          (savedNames (processingLoop lib t out 0 list s).events).length = list.length) := by
  refine ⟨fun i => rfl, toDigits_eq, ?_, ?_, ?_⟩
  · intro i j hij heq
    exact hij (outputFileNameIter_injective lib out i j heq)
  · obtain ⟨k, -, hk⟩ := processingLoop_savedNames lib t out list 0 s
    rw [hk]
    exact (List.nodup_range' 0 k).map (fun i j => outputFileNameIter_injective lib out i j)
  · intro hv
    obtain ⟨evs, s1, h1, hn⟩ := processingLoop_valid lib t out list 0 s hv
    rw [h1, hn]
    simp

/-- C2, as amended: for at least two input clouds and every budget, whenever
`main` runs to completion, the cloud saved to the final output file has at most
`totalPointCount` points, provided that no library filter increases a cloud's
point count and that a random-sampling filter created with `prob = q`,
`0 ≤ q < 1`, returns at most `q · c` of the `c` points it is given. -/
theorem final_count_within_budget (lib : Library DP TP) (argv : List String)
    (hN : 2 ≤ (lib.fileInfoVector (argv.getD 1 "")).length)
    (hret : (main lib 4 argv).value = some 0)
    (hfilter : ∀ f c, lib.cols (lib.filter f c) ≤ lib.cols c)
    (hrand : ∀ (q : ℚ) (c : DP), 0 ≤ q → q < 1 →
      ((lib.cols (lib.filter (resizeFilter (.finite q)) c) : ℕ) : ℚ) ≤ q * (lib.cols c : ℚ)) :
    ∃ cloud, (saves (main lib 4 argv).events).getLast? = some (cloud, argv.getD 3 "")
      ∧ lib.cols cloud ≤ lib.lexicalCastUnsigned (argv.getD 2 "") := by
  have hv : ∀ e ∈ lib.fileInfoVector (argv.getD 1 ""), valid lib e := by
    by_contra hcon
    push_neg at hcon
    have hnone := (processingLoop_value_eq_none_iff lib
      (lib.lexicalCastUnsigned (argv.getD 2 "")) (argv.getD 3 "")
      (lib.fileInfoVector (argv.getD 1 "")) 0 (initialState lib)).mpr hcon
    rw [main_of_loop_none lib argv _ (step_eta_none _ hnone)] at hret
    exact absurd hret (by simp)
  obtain ⟨e0, rest, hlist⟩ : ∃ e0 rest, lib.fileInfoVector (argv.getD 1 "") = e0 :: rest := by
    cases hl : lib.fileInfoVector (argv.getD 1 "") with
    | nil => rw [hl] at hN; simp at hN
    | cons e0 rest => exact ⟨e0, rest, rfl⟩
  have hrest : rest ≠ [] := by
    intro hnil
    rw [hlist, hnil] at hN
    simp at hN
  rw [hlist] at hv
  have h0 := iteration_first lib (lib.lexicalCastUnsigned (argv.getD 2 "")) (argv.getD 3 "")
    e0 (initialState lib) (hv e0 (List.mem_cons_self _ _))
  obtain ⟨evs, s, hloop, hle⟩ := processingLoop_cols_le lib
    (lib.lexicalCastUnsigned (argv.getD 2 "")) (argv.getD 3 "") hrand rest (0 + 1)
    ⟨contribution lib (initialState lib).randSubsample e0,
      contribution lib (initialState lib).randSubsample e0, e0.groundTruthTransformation,
      (initialState lib).randSubsample⟩
    (Nat.succ_ne_zero 0) (fun x hx => hv x (List.mem_cons_of_mem _ hx)) (Or.inl hrest)
  have hfull : processingLoop lib (lib.lexicalCastUnsigned (argv.getD 2 "")) (argv.getD 3 "") 0
      (lib.fileInfoVector (argv.getD 1 "")) (initialState lib)
      = ⟨(contributionEvents lib (initialState lib).randSubsample e0
            ++ saveEvents lib (argv.getD 3 "") 0
              (contribution lib (initialState lib).randSubsample e0)) ++ evs, some s⟩ := by
    rw [hlist]
    simp only [processingLoop, h0, Step.mk_some_bind, hloop]
  refine ⟨finalMap lib s.mapCloud, saves_main_getLast lib argv _ s hfull, ?_⟩
  · exact le_trans (hfilter _ _) (le_trans (hfilter _ _) (le_trans (hfilter _ _) hle))

end Statements

/-! ## Runs on the small library -/

/-- C1 at two valid entries, and at the empty list. -/
theorem main_saves_once_per_entry_then_final_witness :
    (∀ e ∈ (countLib twoClouds 5).fileInfoVector (sampleArgs.getD 1 ""),
        valid (countLib twoClouds 5) e)
      ∧ savedNames (main (countLib twoClouds 5) 4 sampleArgs).events
          = ["stem(map.vtk)_0", "stem(map.vtk)_1", "map.vtk"]
      ∧ savedNames (main (countLib [] 5) 4 sampleArgs).events = ["map.vtk"] :=
  ⟨by decide,
    (main_saves_once_per_entry_then_final (countLib twoClouds 5) sampleArgs (by decide)).2.1,
    (main_saves_once_per_entry_then_final (countLib [] 5) sampleArgs (by decide)).2.1⟩

/-- C3 at three arguments: the run of `main` is the usage line and the abort. -/
theorem validateArgs_aborts_iff_argc_ne_four_witness :
    (3 : Int) ≠ 4
      ∧ (main (countLib twoClouds 5) 3 ["build_map", "list.yaml", "5"]).value = none
      ∧ (main (countLib twoClouds 5) 3 ["build_map", "list.yaml", "5"]).events
          = [.usageError "build_map"] :=
  ⟨by decide,
    ((validateArgs_aborts_iff_argc_ne_four (countLib twoClouds 5) 3
      ["build_map", "list.yaml", "5"]).2.2 (by decide)).1,
    ((validateArgs_aborts_iff_argc_ne_four (countLib twoClouds 5) 3
      ["build_map", "list.yaml", "5"]).2.2 (by decide)).2.1⟩

/-- C4 at a list whose second entry has the extension `".VTK"`: the run
aborts after the one save of the first iteration. -/
theorem main_aborts_iff_some_entry_invalid_witness :
    (main (countLib secondUnsupported 5) 4 sampleArgs).value = none
      ∧ savedNames (main (countLib secondUnsupported 5) 4 sampleArgs).events
          = ["stem(map.vtk)_0"] :=
  ⟨(main_aborts_iff_some_entry_invalid (countLib secondUnsupported 5) sampleArgs).1.mpr
      ⟨⟨"bb.VTK", ".VTK", 4⟩, by decide, Or.inl (by decide)⟩,
    by
      obtain ⟨evs, s, tail, -, -, -, -, h⟩ :=
        (main_aborts_iff_some_entry_invalid (countLib secondUnsupported 5) sampleArgs).2.2
          [⟨"a.vtk", ".vtk", 4⟩] ⟨"bb.VTK", ".VTK", 4⟩ [⟨"ccc.vtk", ".vtk", 4⟩] rfl
          (by decide) (by decide)
      exact h⟩

/-- C5 at the second of two clouds with the budget `5`: the map of eleven
points is over the budget before and after the density-driven filters. -/
theorem resizing_runs_iff_count_exceeds_budget_witness :
    (1 : Nat) ≠ 0
      ∧ valid (countLib twoClouds 5) ⟨"bb.csv", ".csv", 4⟩
      ∧ ∃ probToKeep,
          controlSize (countLib twoClouds 5) 5 11 randSubsample
            = ⟨[.filter densityFilter 11, .filter uniformSubsample 11,
                  .cout (.randomlyKeep probToKeep), .createFilter (resizeFilter probToKeep),
                  .filter (resizeFilter probToKeep) 11],
                some (11, resizeFilter probToKeep)⟩ :=
  ⟨by decide, by decide,
    (resizing_runs_iff_count_exceeds_budget (countLib twoClouds 5) 5 "map.vtk" 1
      ⟨"bb.csv", ".csv", 4⟩ ⟨5, 5, 4, randSubsample⟩ (by decide) (by decide) 11 rfl).2.2.2.2.2
      (by decide) (by decide)⟩

/-- C7 at the second of two clouds: the iteration completes and leaves the
entry's own transformation in `T`. -/
theorem iteration_load_filter_transform_accumulate_witness :
    valid (countLib twoClouds 5) ⟨"bb.csv", ".csv", 7⟩
      ∧ ∃ s1, (iteration (countLib twoClouds 5) 5 "map.vtk" 1 ⟨"bb.csv", ".csv", 7⟩
            ⟨5, 5, 4, randSubsample⟩).value = some s1
          ∧ s1.T = 7 ∧ s1.newCloud = 6 :=
  ⟨by decide, by
    obtain ⟨s1, acc, h1, h2, h3, -⟩ :=
      iteration_load_filter_transform_accumulate (countLib twoClouds 5) 5 "map.vtk" 1
        ⟨"bb.csv", ".csv", 7⟩ ⟨5, 5, 4, randSubsample⟩ (by decide)
    exact ⟨s1, by rw [h1], h3, h2⟩⟩

/-- C8 at the second of two clouds with the budget `5`: the filter created has
`prob = 5/11`. -/
theorem created_filter_prob_is_budget_over_count_witness :
    Event.createFilter (resizeFilter (.finite (5 / 11)))
        ∈ (iteration (countLib twoClouds 5) 5 "map.vtk" 1 ⟨"bb.csv", ".csv", 4⟩
            ⟨5, 5, 4, randSubsample⟩).events
      ∧ ((5 : ℕ) : ℚ) / ((11 : ℕ) : ℚ) < 1
      ∧ (((5 : ℕ) : ℚ) / ((11 : ℕ) : ℚ) = 0 ↔ 5 = 0) :=
  ⟨by with_unfolding_all decide,
    (created_filter_prob_is_budget_over_count (countLib twoClouds 5) 5 "map.vtk" 1
      ⟨"bb.csv", ".csv", 4⟩ ⟨5, 5, 4, randSubsample⟩ (resizeFilter (.finite (5 / 11))) 11 rfl
      (by with_unfolding_all decide)).2.2.2.1,
    (created_filter_prob_is_budget_over_count (countLib twoClouds 5) 5 "map.vtk" 1
      ⟨"bb.csv", ".csv", 4⟩ ⟨5, 5, 4, randSubsample⟩ (resizeFilter (.finite (5 / 11))) 11 rfl
      (by with_unfolding_all decide)).2.2.2.2⟩

/-- C9 at the counters `0` and `1`, and at a run over three clouds. -/
theorem intermediate_names_pairwise_distinct_witness :
    outputFileNameIter (countLib threeClouds 5) "map.vtk" 0
        ≠ outputFileNameIter (countLib threeClouds 5) "map.vtk" 1
      ∧ (savedNames (processingLoop (countLib threeClouds 5) 5 "map.vtk" 0 threeClouds
          (initialState (countLib threeClouds 5))).events).Nodup :=
  ⟨(intermediate_names_pairwise_distinct (countLib threeClouds 5) 5 "map.vtk" threeClouds
      (initialState (countLib threeClouds 5))).2.2.1 0 1 (by decide),
    (intermediate_names_pairwise_distinct (countLib threeClouds 5) 5 "map.vtk" threeClouds
      (initialState (countLib threeClouds 5))).2.2.2.1⟩

/-- C10 at two clouds: the loop ends with a map of eleven points, which is
what the final save gets from filters that keep every point. -/
theorem final_map_is_density_uniform_density_witness :
    (processingLoop (countLib twoClouds 5)
        ((countLib twoClouds 5).lexicalCastUnsigned (sampleArgs.getD 2 "")) (sampleArgs.getD 3 "")
        0 ((countLib twoClouds 5).fileInfoVector (sampleArgs.getD 1 ""))
        (initialState (countLib twoClouds 5))).value
        = some ⟨11, 6, 4, resizeFilter (.finite (5 / 11))⟩
      ∧ (saves (main (countLib twoClouds 5) 4 sampleArgs).events).getLast?
          = some (11, "map.vtk") :=
  ⟨by with_unfolding_all decide,
    (final_map_is_density_uniform_density (countLib twoClouds 5) sampleArgs
      ⟨11, 6, 4, resizeFilter (.finite (5 / 11))⟩ (by with_unfolding_all decide)).2.1⟩

/-- C2, as amended, at two clouds of five and six points with the budget `5`
in the library whose random-sampling filters keep `⌊prob · c⌋` points. -/
theorem final_count_within_budget_witness :
    2 ≤ ((floorLib twoClouds 5).fileInfoVector (sampleArgs.getD 1 "")).length
      ∧ (main (floorLib twoClouds 5) 4 sampleArgs).value = some 0
      ∧ (∀ f c, (floorLib twoClouds 5).cols ((floorLib twoClouds 5).filter f c)
          ≤ (floorLib twoClouds 5).cols c)
      ∧ ∃ cloud, (saves (main (floorLib twoClouds 5) 4 sampleArgs).events).getLast?
            = some (cloud, "map.vtk")
          ∧ cloud ≤ 5 :=
  ⟨by decide, by with_unfolding_all decide, floorLib_filter_le twoClouds 5,
    final_count_within_budget (floorLib twoClouds 5) sampleArgs (by decide)
      (by with_unfolding_all decide) (floorLib_filter_le twoClouds 5)
      (floorLib_resizeFilter_le twoClouds 5)⟩

/-- C2, counterexample: in the library whose filters keep every point, no
filter increases a point count, the run on one cloud of ten points with the
budget `5` returns `0` and saves a final map of ten points, and the run on two
clouds of five and six points with the budget `5` returns `0` and saves a final
map of eleven points. -/
theorem final_count_exceeds_budget :
    (∀ f c, (countLib oneCloud 5).cols ((countLib oneCloud 5).filter f c)
        ≤ (countLib oneCloud 5).cols c)
      ∧ (countLib oneCloud 5).lexicalCastUnsigned (sampleArgs.getD 2 "") = 5
      ∧ (main (countLib oneCloud 5) 4 sampleArgs).value = some 0
      ∧ (saves (main (countLib oneCloud 5) 4 sampleArgs).events).getLast?
          = some (10, "map.vtk")
      ∧ ¬ (countLib oneCloud 5).cols 10 ≤ 5
      ∧ (∀ f c, (countLib twoClouds 5).cols ((countLib twoClouds 5).filter f c)
          ≤ (countLib twoClouds 5).cols c)
      ∧ (countLib twoClouds 5).lexicalCastUnsigned (sampleArgs.getD 2 "") = 5
      ∧ (main (countLib twoClouds 5) 4 sampleArgs).value = some 0
      ∧ (saves (main (countLib twoClouds 5) 4 sampleArgs).events).getLast?
          = some (11, "map.vtk")
      ∧ ¬ (countLib twoClouds 5).cols 11 ≤ 5 :=
  ⟨fun _ _ => le_refl _, rfl, by with_unfolding_all decide, by with_unfolding_all decide,
    by decide, fun _ _ => le_refl _, rfl, by with_unfolding_all decide,
    by with_unfolding_all decide, by decide⟩

/-- C6, evaluated: on three valid clouds of five, six and seven points with
the budget `5` and filters that keep every point, the random-sampling filters
applied are, in order: `prob = 0.65` to the first cloud, `prob = 0.65` to the
second cloud, `prob = 5/11` to the map of eleven points, then `prob = 5/11`,
not `0.65`, to the freshly loaded third cloud, and `prob = 5/18` to the map of
eighteen points. -/
theorem third_cloud_sampled_with_resize_prob :
    randomSamplings (main (countLib threeClouds 5) 4 sampleArgs).events
      = [(.toParam (.finite (65 / 100)), 5), (.toParam (.finite (65 / 100)), 6),
          (.toParam (.finite (5 / 11)), 11), (.toParam (.finite (5 / 11)), 7),
          (.toParam (.finite (5 / 18)), 18)] := by
  with_unfolding_all decide

end BuildMap
